import Mathlib

/-!
Verification of the alxpolly polling application core.

Shallow embedding of:
* the SQL store layer (supabase-schema: tables `polls`, `poll_options`, `votes`,
  trigger functions `enforce_single_vote` and `enforce_min_options`, the
  row-level-security policy `votes_insert`, and the `poll_results` view of the
  second schema generation, which computes per-option percentages);
* the vote API route handler `POST /api/polls/[pollId]/vote`;
* the server actions `createPoll` / `insertPoll` and the zod validator
  `createPollSchema`.

Identifiers are `String`s, timestamps are `Int`s.  Fallible store operations
return `Except String`.  Store write errors that depend on the external
database engine (network failures, unique-text conflicts on option inserts)
are abstracted by explicit boolean error oracles passed to the operation.
-/

namespace AlxPolly

/-- A row of the `polls` table, with the union of the columns read by the
vote route handler (`start_at`, `ends_at`, `anonymous`, `vote_type`) and the
columns declared in the schema file (`expires_at`, `allow_multiple_votes`,
`show_results`, `is_active`, `created_by`). -/
structure Poll where
  id : String
  title : String
  description : Option String
  allow_multiple_votes : Bool
  show_results : Bool
  is_active : Bool
  anonymous : Bool
  vote_type : String
  created_by : String
  start_at : Option Int
  ends_at : Option Int
  expires_at : Option Int
deriving DecidableEq

/-- A row of the `poll_options` table. -/
structure PollOption where
  id : String
  poll_id : String
  text : String
  position : Nat
deriving DecidableEq

/-- A row of the `votes` table (`id` and `created_at` are store-generated and
irrelevant to the verified properties, so they are omitted). -/
structure Vote where
  poll_id : String
  option_id : String
  voter_id : String
deriving DecidableEq

/-- The persistent store: the three tables. -/
structure DB where
  polls : List Poll
  options : List PollOption
  votes : List Vote
deriving DecidableEq

/-- The `option_belongs_to_poll` CHECK constraint on `votes`: the referenced
option row must carry the referenced poll id. -/
def optionBelongsToPoll (db : DB) (optionId pollId : String) : Bool :=
  db.options.any fun o => o.id == optionId && o.poll_id == pollId

/-- The BEFORE INSERT trigger function `enforce_single_vote`: look up the
poll's `allow_multiple_votes`; raise when the poll is missing; when the poll
is single-vote, raise if the voter already has any vote row on the poll. -/
def enforce_single_vote (db : DB) (v : Vote) : Except String Unit :=
  match db.polls.find? (fun p => p.id == v.poll_id) with
  | none => .error "Poll not found"
  | some p =>
    if p.allow_multiple_votes then .ok ()
    else if 0 < (db.votes.filter fun w =>
        w.poll_id == v.poll_id && w.voter_id == v.voter_id).length then
      .error "You have already voted on this poll."
    else .ok ()

/-- The row-level-security WITH CHECK of policy `votes_insert`: the caller is
an authenticated user whose uid equals the row's `voter_id`, and the target
poll is active and not past its `expires_at`. -/
def votes_insert_check (db : DB) (auth : Option String) (now : Int) (v : Vote) : Bool :=
  match auth with
  | none => false
  | some uid =>
    uid == v.voter_id &&
    db.polls.any fun p => p.id == v.poll_id && p.is_active &&
      (match p.expires_at with
       | none => true
       | some t => decide (now < t))

/-- One INSERT into `votes`: BEFORE trigger first, then the RLS WITH CHECK
and the `option_belongs_to_poll` CHECK constraint; on any failure the store
is unchanged and an error is raised. -/
def votesInsert (db : DB) (auth : Option String) (now : Int) (v : Vote) :
    Except String DB :=
  match enforce_single_vote db v with
  | .error e => .error e
  | .ok _ =>
    if votes_insert_check db auth now v then
      if optionBelongsToPoll db v.option_id v.poll_id then
        .ok { db with votes := db.votes ++ [v] }
      else .error "option_belongs_to_poll violation"
    else .error "new row violates row-level security policy"

/-! ## The vote route handler (`POST /api/polls/[pollId]/vote`) -/

/-- The body accepted by `voteSchema`: a UUID `optionId` plus an optional
`optionIds` array.  A request whose body fails the zod parse is modelled as
`none` at the call site. -/
structure VotePayload where
  optionId : String
  optionIds : Option (List String)
deriving DecidableEq

/-- The outcome surfaced to the caller: `ok` or a typed error code. -/
inductive PostResult where
  | ok
  | error (code : String)
deriving DecidableEq

/-- `poll.start_at && new Date(poll.start_at) > now`. -/
def startsInFuture (poll : Poll) (now : Int) : Bool :=
  match poll.start_at with
  | some s => decide (now < s)
  | none => false

/-- `poll.ends_at && new Date(poll.ends_at) < now`. -/
def endedInPast (poll : Poll) (now : Int) : Bool :=
  match poll.ends_at with
  | some e => decide (e < now)
  | none => false

/-- The `for (const oid of optionIds)` loop of the handler: insert each
option in turn, breaking out on the first store error.  Returns the store
after the executed inserts, the rows passed to the store, and the final
value of the handler's `insertResult` variable (`none` when the loop body
never ran, mirroring the JavaScript `undefined`). -/
def insertLoop (auth : Option String) (now : Int) (pollId userId : String)
    (db : DB) : List String → DB × List Vote × Option Bool
  | [] => (db, [], none)
  | oid :: rest =>
    let row : Vote := ⟨pollId, oid, userId⟩
    match votesInsert db auth now row with
    | .error _ => (db, [row], some false)
    | .ok db1 =>
      match insertLoop auth now pollId userId db1 rest with
      | (db2, tried, res) => (db2, row :: tried, some (res.getD true))

/-- The `vote_type` dispatch of the handler, after scheduling and identity
checks have passed.  The final branch models the JavaScript `'ok' in
insertResult` dereference of an `undefined` `insertResult` (an unknown
`vote_type` assigns nothing): the thrown TypeError is caught by the
handler's surrounding try/catch, which answers `INTERNAL_ERROR`. -/
def votePhase (db : DB) (auth : Option String) (now : Int) (pollId : String)
    (poll : Poll) (parsed : VotePayload) (userId : String) :
    PostResult × DB × List Vote :=
  if poll.vote_type == "single" then
    let row : Vote := ⟨pollId, parsed.optionId, userId⟩
    match votesInsert db auth now row with
    | .error _ => (.error "DB_INSERT_VOTE", db, [row])
    | .ok db1 => (.ok, db1, [row])
  else if poll.vote_type == "multiple" || poll.vote_type == "approval" then
    match parsed.optionIds with
    | none => (.error "VALIDATION_ERROR", db, [])
    | some oids =>
      match insertLoop auth now pollId userId db oids with
      | (db1, tried, some false) => (.error "DB_INSERT_VOTE", db1, tried)
      | (db1, tried, some true) => (.ok, db1, tried)
      | (db1, tried, none) => (.error "INTERNAL_ERROR", db1, tried)
  else if poll.vote_type == "ranked" then
    (.error "NOT_IMPLEMENTED", db, [])
  else
    (.error "INTERNAL_ERROR", db, [])

/-- The route handler `POST`: payload validation, poll lookup, scheduling
checks, identity handling (skipped entirely for anonymous polls, with the
empty string as voter id), the already-voted pre-check, then the
`vote_type` dispatch.  Returns the response, the resulting store, and the
vote rows handed to the store for insertion. -/
def POST (db : DB) (auth : Option String) (now : Int) (pollId : String)
    (payload : Option VotePayload) : PostResult × DB × List Vote :=
  match payload with
  | none => (.error "VALIDATION_ERROR", db, [])
  | some parsed =>
    match db.polls.find? (fun p => p.id == pollId) with
    | none => (.error "NOT_FOUND", db, [])
    | some poll =>
      if startsInFuture poll now then (.error "NOT_STARTED", db, [])
      else if endedInPast poll now then (.error "ENDED", db, [])
      else if poll.anonymous then
        votePhase db auth now pollId poll parsed ""
      else
        match auth with
        | none => (.error "UNAUTHORIZED", db, [])
        | some uid =>
          if db.votes.any (fun v => v.poll_id == pollId && v.voter_id == uid) then
            (.error "ALREADY_VOTED", db, [])
          else votePhase db auth now pollId poll parsed uid

/-! ## Store-level concurrency model for single-vote enforcement

The trigger `enforce_single_vote` runs a SELECT COUNT over committed rows
and raises when the count is positive.  Under READ COMMITTED, two insert
transactions running concurrently each evaluate their admission checks
(trigger, RLS policy and CHECK constraint) against the snapshot taken
before either insert commits; the interleaving
check1-check2-commit1-commit2 is therefore reachable.  `seqVoteInsert`
models a fully serialized attempt: the complete `votesInsert` path —
trigger, `votes_insert` RLS and `option_belongs_to_poll` CHECK — runs
against the state holding every previously committed row.
`interleavedPairInsert` models the racing pair, with the same complete
admission checks, both evaluated against the pre-insert snapshot. -/

/-- Does the `enforce_single_vote` trigger admit this row against the given
committed state? -/
def triggerAdmits (db : DB) (v : Vote) : Bool :=
  match enforce_single_vote db v with
  | .ok _ => true
  | .error _ => false

/-- Full admission verdict of one insert transaction against a given
snapshot: the `enforce_single_vote` trigger, the `votes_insert` RLS policy
and the `option_belongs_to_poll` CHECK — exactly the checks `votesInsert`
performs. -/
def insertAdmits (db : DB) (auth : Option String) (now : Int) (v : Vote) : Bool :=
  match votesInsert db auth now v with
  | .ok _ => true
  | .error _ => false

/-- Number of vote rows of one (poll, voter) pair. -/
def pvCount (db : DB) (pollId voterId : String) : Nat :=
  (db.votes.filter fun w => w.poll_id == pollId && w.voter_id == voterId).length

/-- A serialized insert attempt: the full insert path `votesInsert`
(trigger, RLS and CHECK) runs against the state holding every previously
committed row; a rejected attempt leaves the store unchanged. -/
def seqVoteInsert (auth : Option String) (now : Int) (db : DB) (v : Vote) : DB :=
  match votesInsert db auth now v with
  | .ok db1 => db1
  | .error _ => db

/-- Any number of serialized insert attempts, in submission order. -/
def seqRun (auth : Option String) (now : Int) (db : DB) (vs : List Vote) : DB :=
  vs.foldl (seqVoteInsert auth now) db

/-- Two concurrent insert transactions whose admission checks (trigger,
RLS and CHECK) both read the snapshot preceding either commit (the racing
READ COMMITTED schedule): both checks run first, then each admitted row
commits. -/
def interleavedPairInsert (db : DB) (auth1 auth2 : Option String) (now : Int)
    (v1 v2 : Vote) : DB :=
  let ok1 := insertAdmits db auth1 now v1
  let ok2 := insertAdmits db auth2 now v2
  let db1 := if ok1 then { db with votes := db.votes ++ [v1] } else db
  if ok2 then { db1 with votes := db1.votes ++ [v2] } else db1

/-- The only uniqueness constraint declared on `votes` in the schema files:
`UNIQUE(poll_id, user_id, option_id)` (second schema generation).  There is
no UNIQUE on the (poll, voter) pair alone. -/
def votesTripleUnique (votes : List Vote) : Prop :=
  (votes.map fun v => (v.poll_id, v.voter_id, v.option_id)).Nodup

instance (votes : List Vote) : Decidable (votesTripleUnique votes) := by
  unfold votesTripleUnique
  exact inferInstance

/-! ## The `poll_results` view (second schema generation)

`ROUND((COUNT(v.id)::DECIMAL / total.total_votes::DECIMAL) * 100, 1)` when
the poll has votes, `0` otherwise.  The per-poll result is a list of
per-option percentages, one per option, from the option's vote count and
the poll's total. -/

/-- Postgres `ROUND(x, 1)` for non-negative numerics: round half away from
zero to one decimal place. -/
def round1 (q : ℚ) : ℚ := (⌊q * 10 + 1 / 2⌋ : ℚ) / 10

/-- The `percentage` column of the view for one option. -/
def percentage (votes total : ℕ) : ℚ :=
  if 0 < total then round1 ((votes : ℚ) / (total : ℚ) * 100) else 0

/-- All percentages of one poll, from its per-option vote counts. -/
def poll_results_percentages (counts : List ℕ) : List ℚ :=
  counts.map fun c => percentage c counts.sum

/-! ## `createPollSchema` and the `createPoll` / `insertPoll` actions -/

/-- Tail of a zod datetime: one or more digits followed by a final Z. -/
def digitsThenZ : List Char → Bool
  | ['Z'] => true
  | c :: rest => c.isDigit && digitsThenZ rest
  | [] => false

/-- Fractional-seconds-then-Z tail of a zod datetime. -/
def fracZ : List Char → Bool
  | ['Z'] => true
  | '.' :: c :: rest => c.isDigit && digitsThenZ (c :: rest)
  | _ => false

/-- `z.string().datetime()`: an ISO-8601 UTC instant of the shape
YYYY-MM-DDTHH:MM:SS(.digits)?Z. -/
def zDatetime (s : String) : Bool :=
  match s.toList with
  | y1 :: y2 :: y3 :: y4 :: '-' :: m1 :: m2 :: '-' :: d1 :: d2 :: 'T' ::
      h1 :: h2 :: ':' :: n1 :: n2 :: ':' :: s1 :: s2 :: rest =>
    ([y1, y2, y3, y4, m1, m2, d1, d2, h1, h2, n1, n2, s1, s2].all Char.isDigit)
      && fracZ rest
  | _ => false

/-- The already-extracted form payload handed to `createPollSchema`:
`expiresAt` distinguishes absent (`none`), explicit null (`some none`) and
a string (`some (some s)`), mirroring the zod union. -/
structure CreatePollInput where
  title : String
  description : Option String
  options : List String
  allowMultipleVotes : Option Bool
  showResults : Option Bool
  expiresAt : Option (Option String)
deriving DecidableEq

/-- The zod `createPollSchema` parse: title 3..200 chars, description up to
2000 chars, 2..10 options of 1..200 chars each, `expiresAt` absent, null or
a valid datetime string. -/
def createPollSchema_ok (i : CreatePollInput) : Bool :=
  decide (3 ≤ i.title.length) && decide (i.title.length ≤ 200) &&
  (match i.description with
   | none => true
   | some d => decide (d.length ≤ 2000)) &&
  decide (2 ≤ i.options.length) && decide (i.options.length ≤ 10) &&
  i.options.all (fun t => decide (1 ≤ t.length) && decide (t.length ≤ 200)) &&
  (match i.expiresAt with
   | none => true
   | some none => true
   | some (some s) => zDatetime s)

/-- The column values of the `polls` INSERT issued by `insertPoll`. -/
structure PollInsertRow where
  title : String
  description : Option String
  allow_multiple_votes : Bool
  show_results : Bool
  expires_at : Option String
  created_by : String
deriving DecidableEq

/-- The column values of one `poll_options` INSERT issued by `insertPoll`. -/
structure OptionInsertRow where
  poll_id : String
  text : String
  position : Nat
deriving DecidableEq

/-- The store as seen by the poll-creation action: inserted poll rows (with
their generated ids) and inserted option rows. -/
structure PollsStore where
  polls : List (String × PollInsertRow)
  poll_options : List OptionInsertRow
deriving DecidableEq

/-- Result type of `insertPoll` / `createPoll`. -/
inductive CreatePollResult where
  | okPoll (id : String)
  | err (code : String)
deriving DecidableEq

/-- The poll row built from the parsed input (`?? null` / `?? false` /
`?? true` defaults as in the source). -/
def pollRowOfInput (i : CreatePollInput) (userId : String) : PollInsertRow :=
  { title := i.title
    description := i.description
    allow_multiple_votes := i.allowMultipleVotes.getD false
    show_results := i.showResults.getD true
    expires_at := match i.expiresAt with
      | some (some s) => some s
      | _ => none
    created_by := userId }

/-- `insertPoll`: insert the poll row, then the option rows (position =
caller index).  The two store writes may each fail, which the external
database decides; the oracles `pollInsertErr` / `optionsInsertErr` supply
those outcomes.  When the second insert fails the already inserted poll row
is left in place — the source performs no compensating delete. -/
def insertPoll (st : PollsStore) (input : CreatePollInput) (userId newId : String)
    (pollInsertErr optionsInsertErr : Bool) : CreatePollResult × PollsStore :=
  if pollInsertErr then (.err "DB_INSERT_POLL", st)
  else
    let st1 : PollsStore :=
      { st with polls := st.polls ++ [(newId, pollRowOfInput input userId)] }
    if optionsInsertErr then (.err "DB_INSERT_OPTIONS", st1)
    else
      (.okPoll newId,
       { st1 with poll_options := st1.poll_options ++
          (input.options.enum.map fun oi =>
            { poll_id := newId, text := oi.2, position := oi.1 }) })

/-- The `createPoll` server action: zod parse (rejecting before any write),
then the authenticated-user requirement, then `insertPoll`. -/
def createPoll (st : PollsStore) (input : CreatePollInput) (auth : Option String)
    (newId : String) (pollInsertErr optionsInsertErr : Bool) :
    CreatePollResult × PollsStore :=
  if createPollSchema_ok input then
    match auth with
    | none => (.err "UNAUTHORIZED", st)
    | some uid => insertPoll st input uid newId pollInsertErr optionsInsertErr
  else (.err "VALIDATION_ERROR", st)

/-! ## Poll activation (`UPDATE polls SET is_active = …`)

The update statement is governed by the RLS policy `polls_owner_modify`
(only rows whose `created_by` equals the caller's uid are touched) and the
BEFORE UPDATE trigger `enforce_min_options` (activation requires at least
two options, raising otherwise and aborting the statement). -/

/-- Number of `poll_options` rows of one poll. -/
def optionCount (db : DB) (pollId : String) : Nat :=
  (db.options.filter fun o => o.poll_id == pollId).length

/-- The BEFORE UPDATE trigger `enforce_min_options` on the updated row:
admits the row unless it is being activated with fewer than two options. -/
def enforce_min_options (db : DB) (newRow : Poll) : Bool :=
  if newRow.is_active then decide (2 ≤ optionCount db newRow.id) else true

/-- The activation update: rows matched by id and (per RLS) ownership get
`is_active := active`; if the trigger raises on any matched row the whole
statement fails and the store is unchanged. -/
def setActive (db : DB) (uid pollId : String) (active : Bool) :
    Except String DB :=
  let touched := db.polls.filter fun p => p.id == pollId && p.created_by == uid
  if touched.all (fun p => enforce_min_options db { p with is_active := active }) then
    .ok { db with polls := db.polls.map fun p =>
      if p.id == pollId && p.created_by == uid then { p with is_active := active } else p }
  else .error "A poll must have at least 2 options before activation."

/-! ## Theorems -/

/-- The vote-type dispatch can only answer ok, DB_INSERT_VOTE,
VALIDATION_ERROR, INTERNAL_ERROR or NOT_IMPLEMENTED; in particular it never
produces a scheduling or identity error code. -/
lemma votePhase_fst_ne (db : DB) (auth : Option String) (now : Int)
    (pollId : String) (poll : Poll) (parsed : VotePayload) (userId : String)
    (c : String) (h1 : c ≠ "DB_INSERT_VOTE") (h2 : c ≠ "VALIDATION_ERROR")
    (h3 : c ≠ "INTERNAL_ERROR") (h4 : c ≠ "NOT_IMPLEMENTED") :
    (votePhase db auth now pollId poll parsed userId).1 ≠ PostResult.error c := by
  unfold votePhase
  dsimp only
  repeat' split
  all_goals dsimp only
  all_goals intro hco
  all_goals (try exact PostResult.noConfusion hco)
  all_goals injection hco with hh
  all_goals subst hh
  all_goals simp_all

/-- C4: on a found poll, the handler answers ENDED when `ends_at` (the
poll's expiration timestamp, named `expires_at` in the first schema
generation) lies strictly in the past and the start check does not fire
first; it answers NOT_STARTED when `start_at` lies strictly in the future;
and when both timestamps are absent neither scheduling check blocks
admission: the response is never NOT_STARTED or ENDED. -/
theorem C4_scheduling_checks (db : DB) (auth : Option String) (now : Int)
    (pollId : String) (pl : VotePayload) (poll : Poll)
    (hfind : db.polls.find? (fun p => p.id == pollId) = some poll) :
    (∀ e, poll.ends_at = some e → e < now → startsInFuture poll now = false →
      (POST db auth now pollId (some pl)).1 = PostResult.error "ENDED") ∧
    (∀ s, poll.start_at = some s → now < s →
      (POST db auth now pollId (some pl)).1 = PostResult.error "NOT_STARTED") ∧
    (poll.start_at = none → poll.ends_at = none →
      (POST db auth now pollId (some pl)).1 ≠ PostResult.error "NOT_STARTED" ∧
      (POST db auth now pollId (some pl)).1 ≠ PostResult.error "ENDED") := by
  refine ⟨?_, ?_, ?_⟩
  · intro e he hlt hs
    unfold POST
    rw [hfind]
    simp only [hs, Bool.false_eq_true, if_false]
    have hend : endedInPast poll now = true := by simp [endedInPast, he, hlt]
    simp [hend]
  · intro s hs hlt
    unfold POST
    rw [hfind]
    have hst : startsInFuture poll now = true := by simp [startsInFuture, hs, hlt]
    simp [hst]
  · intro hs he
    have hst : startsInFuture poll now = false := by simp [startsInFuture, hs]
    have hend : endedInPast poll now = false := by simp [endedInPast, he]
    unfold POST
    rw [hfind]
    simp only [hst, hend, Bool.false_eq_true, if_false]
    split
    · exact ⟨votePhase_fst_ne _ _ _ _ _ _ _ _ (by decide) (by decide) (by decide) (by decide),
        votePhase_fst_ne _ _ _ _ _ _ _ _ (by decide) (by decide) (by decide) (by decide)⟩
    · split
      · simp
      · split
        · simp
        · exact ⟨votePhase_fst_ne _ _ _ _ _ _ _ _ (by decide) (by decide) (by decide) (by decide),
            votePhase_fst_ne _ _ _ _ _ _ _ _ (by decide) (by decide) (by decide) (by decide)⟩

/-- A concrete poll whose voting period has ended (end timestamp 0). -/
def endedPoll : Poll :=
  ⟨"p1", "Lunch", none, false, true, true, false, "single", "owner",
    none, some 0, some 0⟩

/-- Store holding only `endedPoll`. -/
def endedDB : DB := ⟨[endedPoll], [], []⟩

/-- C4 witness: on a poll whose end timestamp 0 is before the current time
5, the handler answers ENDED. -/
theorem C4_scheduling_checks_witness :
    (POST endedDB none 5 "p1" (some ⟨"oA", none⟩)).1 = PostResult.error "ENDED" :=
  (C4_scheduling_checks endedDB none 5 "p1" ⟨"oA", none⟩ endedPoll (by decide)).1
    0 (by decide) (by decide) (by decide)

/-- When every poll carrying the target id is inactive, the RLS policy
`votes_insert` rejects the row for any caller. -/
lemma votes_insert_check_inactive (db : DB) (auth : Option String) (now : Int)
    (v : Vote) (hall : ∀ p ∈ db.polls, p.id = v.poll_id → p.is_active = false) :
    votes_insert_check db auth now v = false := by
  unfold votes_insert_check
  cases auth with
  | none => rfl
  | some uid =>
    have hany : (db.polls.any fun p => p.id == v.poll_id && p.is_active &&
        (match p.expires_at with
         | none => true
         | some t => decide (now < t))) = false := by
      rw [List.any_eq_false]
      intro p hp hcond
      simp only [Bool.and_eq_true, beq_iff_eq] at hcond
      rw [hall p hp hcond.1.1] at hcond
      exact Bool.false_ne_true hcond.1.2
    simp [hany]

/-- With the target poll inactive, every insert into `votes` raises. -/
lemma votesInsert_inactive_error (db : DB) (auth : Option String) (now : Int)
    (v : Vote) (hall : ∀ p ∈ db.polls, p.id = v.poll_id → p.is_active = false) :
    ∃ e, votesInsert db auth now v = Except.error e := by
  unfold votesInsert
  cases h : enforce_single_vote db v with
  | error e => exact ⟨e, rfl⟩
  | ok u =>
    rw [votes_insert_check_inactive db auth now v hall]
    exact ⟨_, rfl⟩

/-- With the target poll inactive, the vote-type dispatch never succeeds and
never appends a vote row. -/
lemma votePhase_inactive (db : DB) (auth : Option String) (now : Int)
    (pollId : String) (poll : Poll) (parsed : VotePayload) (userId : String)
    (hall : ∀ p ∈ db.polls, p.id = pollId → p.is_active = false) :
    (votePhase db auth now pollId poll parsed userId).1 ≠ PostResult.ok ∧
    (votePhase db auth now pollId poll parsed userId).2.1.votes = db.votes := by
  unfold votePhase
  split
  · dsimp only
    obtain ⟨e, he⟩ := votesInsert_inactive_error db auth now
      ⟨pollId, parsed.optionId, userId⟩ hall
    rw [he]
    exact ⟨by simp, rfl⟩
  · split
    · cases hop : parsed.optionIds with
      | none => simp
      | some oids =>
        cases oids with
        | nil => simp [insertLoop]
        | cons o rest =>
          obtain ⟨e, he⟩ := votesInsert_inactive_error db auth now
            ⟨pollId, o, userId⟩ hall
          simp [insertLoop, he]
    · split
      · exact ⟨by simp, rfl⟩
      · exact ⟨by simp, rfl⟩

/-- C3: an admit attempt on an existing poll whose `is_active` flag is false
is always rejected (the response is never ok) and appends no vote row: the
handler performs no activity check itself, but the store's RLS policy
`votes_insert` refuses the insert, which the handler surfaces as an
error. -/
theorem C3_inactive_poll_rejected (db : DB) (auth : Option String) (now : Int)
    (pollId : String) (payload : Option VotePayload) (poll : Poll)
    (hfind : db.polls.find? (fun p => p.id == pollId) = some poll)
    (hall : ∀ p ∈ db.polls, p.id = pollId → p.is_active = false) :
    (POST db auth now pollId payload).1 ≠ PostResult.ok ∧
    (POST db auth now pollId payload).2.1.votes = db.votes := by
  unfold POST
  cases payload with
  | none => exact ⟨by simp, rfl⟩
  | some parsed =>
    rw [hfind]
    dsimp only
    split
    · exact ⟨by simp, rfl⟩
    · split
      · exact ⟨by simp, rfl⟩
      · split
        · exact votePhase_inactive db auth now pollId poll parsed "" hall
        · cases auth with
          | none => exact ⟨by simp, rfl⟩
          | some uid =>
            dsimp only
            split
            · exact ⟨by simp, rfl⟩
            · exact votePhase_inactive db (some uid) now pollId poll parsed uid hall

/-- A concrete inactive poll with an unbounded voting window. -/
def inactivePoll : Poll :=
  ⟨"p1", "Lunch", none, false, true, false, false, "single", "owner",
    none, none, none⟩

/-- Store holding `inactivePoll` and one of its options. -/
def inactiveDB : DB := ⟨[inactivePoll], [⟨"oA", "p1", "Pizza", 0⟩], []⟩

/-- C3 witness: an inactive single-vote poll with an open window rejects an
authenticated vote and the ledger stays empty. -/
theorem C3_inactive_poll_rejected_witness :
    (POST inactiveDB (some "alice") 5 "p1" (some ⟨"oA", none⟩)).1 ≠ PostResult.ok ∧
    (POST inactiveDB (some "alice") 5 "p1" (some ⟨"oA", none⟩)).2.1.votes = [] :=
  C3_inactive_poll_rejected inactiveDB (some "alice") 5 "p1" (some ⟨"oA", none⟩)
    inactivePoll (by decide) (by decide)

/-- A successful `votes` insert appends exactly the given row. -/
lemma votesInsert_ok_votes (db : DB) (auth : Option String) (now : Int) (v : Vote)
    (db1 : DB) (h : votesInsert db auth now v = Except.ok db1) :
    db1.votes = db.votes ++ [v] := by
  unfold votesInsert at h
  split at h
  · exact absurd h (by simp)
  · split at h
    · split at h
      · injection h with h
        subst h
        rfl
      · exact absurd h (by simp)
    · exact absurd h (by simp)

/-- Every row the option loop hands to the store carries the given voter
id. -/
lemma insertLoop_tried_voter (auth : Option String) (now : Int)
    (pollId userId : String) :
    ∀ (oids : List String) (db : DB) (v : Vote),
      v ∈ (insertLoop auth now pollId userId db oids).2.1 → v.voter_id = userId := by
  intro oids
  induction oids with
  | nil => intro db v hv; simp [insertLoop] at hv
  | cons o rest ih =>
    intro db v hv
    rw [insertLoop] at hv
    dsimp only at hv
    cases hins : votesInsert db auth now ⟨pollId, o, userId⟩ with
    | error e =>
      rw [hins] at hv
      simp at hv
      rw [hv]
    | ok db1 =>
      rw [hins] at hv
      dsimp only at hv
      rcases List.mem_cons.mp hv with hv | hv
      · rw [hv]
      · exact ih db1 v hv

/-- Every vote row present after the option loop was either already in the
store or carries the given voter id. -/
lemma insertLoop_votes_sub (auth : Option String) (now : Int)
    (pollId userId : String) :
    ∀ (oids : List String) (db : DB) (v : Vote),
      v ∈ (insertLoop auth now pollId userId db oids).1.votes →
      v ∈ db.votes ∨ v.voter_id = userId := by
  intro oids
  induction oids with
  | nil => intro db v hv; exact Or.inl hv
  | cons o rest ih =>
    intro db v hv
    rw [insertLoop] at hv
    dsimp only at hv
    cases hins : votesInsert db auth now ⟨pollId, o, userId⟩ with
    | error e =>
      rw [hins] at hv
      exact Or.inl hv
    | ok db1 =>
      rw [hins] at hv
      dsimp only at hv
      rcases ih db1 v hv with hv1 | hv1
      · rw [votesInsert_ok_votes db auth now _ db1 hins] at hv1
        rcases List.mem_append.mp hv1 with hv2 | hv2
        · exact Or.inl hv2
        · simp at hv2
          rw [hv2]
          exact Or.inr rfl
      · exact Or.inr hv1

/-- Every row the vote-type dispatch hands to the store carries the given
voter id. -/
lemma votePhase_tried_voter (db : DB) (auth : Option String) (now : Int)
    (pollId : String) (poll : Poll) (parsed : VotePayload) (userId : String)
    (v : Vote) (hv : v ∈ (votePhase db auth now pollId poll parsed userId).2.2) :
    v.voter_id = userId := by
  unfold votePhase at hv
  dsimp only at hv
  split at hv
  · split at hv <;> (simp at hv; rw [hv])
  · split at hv
    · split at hv
      · simp at hv
      · rename_i oids heq
        rcases hrec : insertLoop auth now pollId userId db oids with ⟨db2, tried, res⟩
        rw [hrec] at hv
        have := insertLoop_tried_voter auth now pollId userId oids db v
        rw [hrec] at this
        rcases res with _ | b
        · exact this hv
        · cases b
          · exact this hv
          · exact this hv
    · split at hv
      · simp at hv
      · simp at hv

/-- Every vote row present after the vote-type dispatch was either already
in the store or carries the given voter id. -/
lemma votePhase_votes_sub (db : DB) (auth : Option String) (now : Int)
    (pollId : String) (poll : Poll) (parsed : VotePayload) (userId : String)
    (v : Vote)
    (hv : v ∈ (votePhase db auth now pollId poll parsed userId).2.1.votes) :
    v ∈ db.votes ∨ v.voter_id = userId := by
  unfold votePhase at hv
  dsimp only at hv
  split at hv
  · split at hv
    · exact Or.inl hv
    · rename_i db1 hins
      dsimp only at hv
      rw [votesInsert_ok_votes db auth now _ db1 hins] at hv
      rcases List.mem_append.mp hv with hv1 | hv1
      · exact Or.inl hv1
      · simp at hv1
        rw [hv1]
        exact Or.inr rfl
  · split at hv
    · split at hv
      · exact Or.inl hv
      · rename_i oids heq
        rcases hrec : insertLoop auth now pollId userId db oids with ⟨db2, tried, res⟩
        rw [hrec] at hv
        have := insertLoop_votes_sub auth now pollId userId oids db v
        rw [hrec] at this
        rcases res with _ | b
        · exact this hv
        · cases b
          · exact this hv
          · exact this hv
    · split at hv
      · exact Or.inl hv
      · exact Or.inl hv

/-- C9: on an anonymous poll the handler reaches neither the UNAUTHORIZED
identity check nor the ALREADY_VOTED prior-vote pre-check, and every vote
row it hands to the store — hence every row newly present afterwards —
carries the empty string as voter id; conversely, an UNAUTHORIZED or
ALREADY_VOTED response can only arise on a non-anonymous poll. -/
theorem C9_anonymous_bypasses_identity (db : DB) (auth : Option String)
    (now : Int) (pollId : String) (pl : VotePayload) (poll : Poll)
    (hfind : db.polls.find? (fun p => p.id == pollId) = some poll) :
    (poll.anonymous = true →
      (POST db auth now pollId (some pl)).1 ≠ PostResult.error "UNAUTHORIZED" ∧
      (POST db auth now pollId (some pl)).1 ≠ PostResult.error "ALREADY_VOTED" ∧
      (∀ v ∈ (POST db auth now pollId (some pl)).2.2, v.voter_id = "") ∧
      (∀ v ∈ (POST db auth now pollId (some pl)).2.1.votes,
        v ∈ db.votes ∨ v.voter_id = "")) ∧
    (∀ c, (POST db auth now pollId (some pl)).1 = PostResult.error c →
      c = "UNAUTHORIZED" ∨ c = "ALREADY_VOTED" → poll.anonymous = false) := by
  unfold POST
  rw [hfind]
  dsimp only
  split
  · constructor
    · intro _
      exact ⟨by simp, by simp, by simp, fun v hv => Or.inl hv⟩
    · intro c hc hor
      injection hc with hc
      rcases hor with h | h <;> simp [← hc] at h
  · split
    · constructor
      · intro _
        exact ⟨by simp, by simp, by simp, fun v hv => Or.inl hv⟩
      · intro c hc hor
        injection hc with hc
        rcases hor with h | h <;> simp [← hc] at h
    · split
      · rename_i hanon
        constructor
        · intro _
          refine ⟨votePhase_fst_ne _ _ _ _ _ _ _ _ (by decide) (by decide)
              (by decide) (by decide),
            votePhase_fst_ne _ _ _ _ _ _ _ _ (by decide) (by decide)
              (by decide) (by decide),
            fun v hv => votePhase_tried_voter db auth now pollId poll pl "" v hv,
            fun v hv => votePhase_votes_sub db auth now pollId poll pl "" v hv⟩
        · intro c hc hor
          exfalso
          rcases hor with h | h <;> rw [h] at hc
          · exact votePhase_fst_ne db auth now pollId poll pl "" _
              (by decide) (by decide) (by decide) (by decide) hc
          · exact votePhase_fst_ne db auth now pollId poll pl "" _
              (by decide) (by decide) (by decide) (by decide) hc
      · rename_i hanon
        have hfalse : poll.anonymous = false := by
          revert hanon
          cases poll.anonymous <;> simp
        constructor
        · intro h
          rw [h] at hfalse
          exact absurd hfalse (by simp)
        · intro c _ _
          exact hfalse

/-- A concrete anonymous poll with one option. -/
def anonPoll : Poll :=
  ⟨"p1", "Lunch", none, true, true, true, true, "single", "owner",
    none, none, none⟩

/-- Store holding `anonPoll` and one of its options. -/
def anonDB : DB := ⟨[anonPoll], [⟨"oA", "p1", "Pizza", 0⟩], []⟩

/-- C9 witness: an unauthenticated vote on an anonymous poll is not answered
UNAUTHORIZED. -/
theorem C9_anonymous_bypasses_identity_witness :
    (POST anonDB none 5 "p1" (some ⟨"oA", none⟩)).1 ≠
      PostResult.error "UNAUTHORIZED" :=
  ((C9_anonymous_bypasses_identity anonDB none 5 "p1" ⟨"oA", none⟩ anonPoll
    (by decide)).1 (by decide)).1

/-- An unrecognised `vote_type` leaves the handler's insert-result variable
unassigned; dereferencing it throws, and the catch block answers
INTERNAL_ERROR with the store untouched and no row handed to the store. -/
lemma votePhase_unknown_type (db : DB) (auth : Option String) (now : Int)
    (pollId : String) (poll : Poll) (parsed : VotePayload) (userId : String)
    (h1 : poll.vote_type ≠ "single") (h2 : poll.vote_type ≠ "multiple")
    (h3 : poll.vote_type ≠ "approval") (h4 : poll.vote_type ≠ "ranked") :
    votePhase db auth now pollId poll parsed userId =
      (PostResult.error "INTERNAL_ERROR", db, []) := by
  unfold votePhase
  simp [h1, h2, h3, h4]

/-- C10: a vote request that passes payload validation, the scheduling
checks and the identity checks, on an existing poll whose `vote_type` is
none of single, multiple, approval or ranked, is answered INTERNAL_ERROR
with no vote row inserted. -/
theorem C10_unknown_vote_type_internal_error (db : DB) (auth : Option String)
    (now : Int) (pollId : String) (pl : VotePayload) (poll : Poll)
    (hfind : db.polls.find? (fun p => p.id == pollId) = some poll)
    (hs : startsInFuture poll now = false) (he : endedInPast poll now = false)
    (h1 : poll.vote_type ≠ "single") (h2 : poll.vote_type ≠ "multiple")
    (h3 : poll.vote_type ≠ "approval") (h4 : poll.vote_type ≠ "ranked")
    (hauth : poll.anonymous = true ∨
      ∃ uid, auth = some uid ∧
        (db.votes.any fun v => v.poll_id == pollId && v.voter_id == uid) = false) :
    POST db auth now pollId (some pl) =
      (PostResult.error "INTERNAL_ERROR", db, []) := by
  unfold POST
  rw [hfind]
  dsimp only
  rw [hs, he]
  simp only [Bool.false_eq_true, if_false]
  split
  · exact votePhase_unknown_type db auth now pollId poll pl "" h1 h2 h3 h4
  · rename_i hanon
    rcases hauth with hanon2 | ⟨uid, huid, hnone⟩
    · exact absurd hanon2 hanon
    · rw [huid]
      dsimp only
      rw [hnone]
      simp only [Bool.false_eq_true, if_false]
      exact votePhase_unknown_type db (some uid) now pollId poll pl uid h1 h2 h3 h4

/-- A concrete poll with an unrecognised vote type. -/
def weirdPoll : Poll :=
  ⟨"p1", "Lunch", none, true, true, true, false, "quadratic", "owner",
    none, none, none⟩

/-- Store holding `weirdPoll` and one of its options. -/
def weirdDB : DB := ⟨[weirdPoll], [⟨"oA", "p1", "Pizza", 0⟩], []⟩

/-- C10 witness: an authenticated, schedulable vote on a poll with vote
type "quadratic" is answered INTERNAL_ERROR and no row is inserted. -/
theorem C10_unknown_vote_type_internal_error_witness :
    POST weirdDB (some "alice") 5 "p1" (some ⟨"oA", none⟩) =
      (PostResult.error "INTERNAL_ERROR", weirdDB, []) :=
  C10_unknown_vote_type_internal_error weirdDB (some "alice") 5 "p1"
    ⟨"oA", none⟩ weirdPoll (by decide) (by decide) (by decide) (by decide)
    (by decide) (by decide) (by decide)
    (Or.inr ⟨"alice", rfl, by decide⟩)

/-- A concrete non-anonymous poll of vote_type multiple that also allows
multiple votes at the store level. -/
def multiPoll : Poll :=
  ⟨"p1", "Lunch", none, true, true, true, false, "multiple", "owner",
    none, none, none⟩

/-- Store holding `multiPoll`, its two options, and one prior vote row by
alice on option oA. -/
def multiDB : DB :=
  ⟨[multiPoll],
    [⟨"oA", "p1", "Pizza", 0⟩, ⟨"oB", "p1", "Sushi", 1⟩],
    [⟨"p1", "oA", "alice"⟩]⟩

/-- C2 counterexample: a non-anonymous poll with vote_type multiple, whose
voter alice already holds a vote row on option oA, rejects alice's vote for
the distinct option oB with ALREADY_VOTED and appends nothing — the claim
that no single-vote restriction applies to multiple/approval polls fails
on the handler's unconditional prior-vote pre-check. -/
theorem C2_counterexample :
    (POST multiDB (some "alice") 5 "p1" (some ⟨"oB", some ["oB"]⟩)).1 =
      PostResult.error "ALREADY_VOTED" ∧
    (POST multiDB (some "alice") 5 "p1" (some ⟨"oB", some ["oB"]⟩)).2.1.votes =
      [⟨"p1", "oA", "alice"⟩] := by
  decide

/-- C2 amended: on a non-anonymous poll of vote_type multiple or approval,
an admit attempt by an identified voter who already has any prior vote row
on the poll (in particular on other options) is rejected with
ALREADY_VOTED before the vote-type dispatch, and nothing is appended. -/
theorem C2_amended_prior_vote_rejected (db : DB) (now : Int)
    (pollId uid : String) (pl : VotePayload) (poll : Poll)
    (hfind : db.polls.find? (fun p => p.id == pollId) = some poll)
    (_htype : poll.vote_type = "multiple" ∨ poll.vote_type = "approval")
    (hanon : poll.anonymous = false)
    (hs : startsInFuture poll now = false) (he : endedInPast poll now = false)
    (hprior : (db.votes.any fun v => v.poll_id == pollId && v.voter_id == uid) = true) :
    POST db (some uid) now pollId (some pl) =
      (PostResult.error "ALREADY_VOTED", db, []) := by
  unfold POST
  rw [hfind]
  dsimp only
  rw [hs, he, hanon]
  simp only [Bool.false_eq_true, if_false]
  rw [hprior]
  simp

/-- C2 amended witness: the concrete scenario of the counterexample,
reached through the amended statement. -/
theorem C2_amended_prior_vote_rejected_witness :
    POST multiDB (some "alice") 5 "p1" (some ⟨"oB", some ["oB"]⟩) =
      (PostResult.error "ALREADY_VOTED", multiDB, []) :=
  C2_amended_prior_vote_rejected multiDB 5 "p1" "alice" ⟨"oB", some ["oB"]⟩
    multiPoll (by decide) (Or.inl (by decide)) (by decide) (by decide)
    (by decide) (by decide)

/-- A successful `votes` insert leaves the polls table unchanged. -/
lemma votesInsert_ok_polls (db : DB) (auth : Option String) (now : Int)
    (v : Vote) (db1 : DB) (h : votesInsert db auth now v = Except.ok db1) :
    db1.polls = db.polls := by
  unfold votesInsert at h
  split at h
  · exact absurd h (by simp)
  · split at h
    · split at h
      · injection h with h
        subst h
        rfl
      · exact absurd h (by simp)
    · exact absurd h (by simp)

/-- A serialized insert attempt leaves the polls table unchanged. -/
lemma seqVoteInsert_polls (auth : Option String) (now : Int) (db : DB)
    (v : Vote) : (seqVoteInsert auth now db v).polls = db.polls := by
  unfold seqVoteInsert
  cases h : votesInsert db auth now v with
  | ok db1 => exact votesInsert_ok_polls db auth now v db1 h
  | error e => rfl

/-- On a single-vote poll, the trigger admits a row exactly when the voter
has no committed row on the poll. -/
lemma triggerAdmits_iff (db : DB) (poll : Poll) (w : Vote)
    (hfind : db.polls.find? (fun p => p.id == w.poll_id) = some poll)
    (hsingle : poll.allow_multiple_votes = false) :
    triggerAdmits db w = true ↔ pvCount db w.poll_id w.voter_id = 0 := by
  unfold triggerAdmits enforce_single_vote pvCount
  rw [hfind]
  dsimp only
  rw [hsingle]
  simp only [Bool.false_eq_true, if_false]
  split
  · rename_i u h
    split at h
    · exact absurd h (by simp)
    · rename_i hc
      exact ⟨fun _ => by omega, fun _ => rfl⟩
  · rename_i e h
    split at h
    · rename_i hc
      constructor
      · intro hco
        exact absurd hco (by simp)
      · intro hlen
        exact absurd hlen (by omega)
    · exact absurd h (by simp)

/-- Appending the row itself raises the (poll, voter) count by one. -/
lemma pvCount_append_self (db : DB) (w : Vote) :
    pvCount { db with votes := db.votes ++ [w] } w.poll_id w.voter_id =
      pvCount db w.poll_id w.voter_id + 1 := by
  unfold pvCount
  dsimp only
  rw [List.filter_append]
  simp

/-- A successful full insert implies the trigger saw no committed
(poll, voter) row in its snapshot. -/
lemma votesInsert_ok_pvCount_zero (db : DB) (auth : Option String) (now : Int)
    (w : Vote) (poll : Poll) (db1 : DB)
    (hfind : db.polls.find? (fun p => p.id == w.poll_id) = some poll)
    (hsingle : poll.allow_multiple_votes = false)
    (h : votesInsert db auth now w = Except.ok db1) :
    pvCount db w.poll_id w.voter_id = 0 := by
  have htr : triggerAdmits db w = true := by
    unfold votesInsert at h
    cases he : enforce_single_vote db w with
    | ok u =>
      unfold triggerAdmits
      rw [he]
    | error e =>
      rw [he] at h
      exact absurd h (by simp)
  exact (triggerAdmits_iff db poll w hfind hsingle).mp htr

/-- Effect of one serialized attempt on a single-vote poll: either the full
insert path rejects it and the store is untouched, or it is the voter's
first (poll, voter) row and afterwards exactly one such row exists. -/
lemma pvCount_seqVoteInsert_cases (auth : Option String) (now : Int)
    (db : DB) (poll : Poll) (w : Vote)
    (hfind : db.polls.find? (fun p => p.id == w.poll_id) = some poll)
    (hsingle : poll.allow_multiple_votes = false) :
    seqVoteInsert auth now db w = db ∨
    (pvCount db w.poll_id w.voter_id = 0 ∧
      pvCount (seqVoteInsert auth now db w) w.poll_id w.voter_id = 1) := by
  unfold seqVoteInsert
  cases hins : votesInsert db auth now w with
  | error e => exact Or.inl rfl
  | ok db1 =>
    have hz := votesInsert_ok_pvCount_zero db auth now w poll db1 hfind hsingle hins
    refine Or.inr ⟨hz, ?_⟩
    have hv := votesInsert_ok_votes db auth now w db1 hins
    unfold pvCount at hz ⊢
    rw [hv, List.filter_append, List.length_append, hz]
    simp

/-- Once a (poll, voter) row is committed on a single-vote poll, further
serialized attempts by that voter change nothing: the trigger rejects each
insert. -/
lemma seqRun_id_of_pos (auth : Option String) (now : Int)
    (pollId voterId : String) (vs : List Vote) :
    ∀ (db : DB) (poll : Poll),
      db.polls.find? (fun p => p.id == pollId) = some poll →
      poll.allow_multiple_votes = false →
      (∀ w ∈ vs, w.poll_id = pollId ∧ w.voter_id = voterId) →
      0 < pvCount db pollId voterId →
      seqRun auth now db vs = db := by
  induction vs with
  | nil => intro db poll _ _ _ _; rfl
  | cons w t ih =>
    intro db poll hfind hsingle hall hpos
    obtain ⟨hw1, hw2⟩ := hall w (List.mem_cons_self _ _)
    have hfindw : db.polls.find? (fun p => p.id == w.poll_id) = some poll := by
      rw [hw1]; exact hfind
    have hstep : seqVoteInsert auth now db w = db := by
      unfold seqVoteInsert
      cases hins : votesInsert db auth now w with
      | error e => rfl
      | ok db1 =>
        have hz := votesInsert_ok_pvCount_zero db auth now w poll db1 hfindw
          hsingle hins
        rw [hw1, hw2] at hz
        exact absurd hz (by omega)
    unfold seqRun at ih ⊢
    rw [List.foldl_cons, hstep]
    exact ih db poll hfind hsingle
      (fun x hx => hall x (List.mem_cons_of_mem _ hx)) hpos

/-- At most one (poll, voter) row survives any sequence of serialized
attempts by one voter on a single-vote poll. -/
lemma seqRun_pvCount_le_one (auth : Option String) (now : Int)
    (pollId voterId : String) (vs : List Vote) :
    ∀ (db : DB) (poll : Poll),
      db.polls.find? (fun p => p.id == pollId) = some poll →
      poll.allow_multiple_votes = false →
      (∀ w ∈ vs, w.poll_id = pollId ∧ w.voter_id = voterId) →
      pvCount db pollId voterId ≤ 1 →
      pvCount (seqRun auth now db vs) pollId voterId ≤ 1 := by
  induction vs with
  | nil => intro db poll _ _ _ hle; exact hle
  | cons w t ih =>
    intro db poll hfind hsingle hall hle
    obtain ⟨hw1, hw2⟩ := hall w (List.mem_cons_self _ _)
    have hfindw : db.polls.find? (fun p => p.id == w.poll_id) = some poll := by
      rw [hw1]; exact hfind
    have htail : ∀ x ∈ t, x.poll_id = pollId ∧ x.voter_id = voterId :=
      fun x hx => hall x (List.mem_cons_of_mem _ hx)
    unfold seqRun at ih ⊢
    rw [List.foldl_cons]
    rcases pvCount_seqVoteInsert_cases auth now db poll w hfindw hsingle with
      hcase | ⟨hz, hone⟩
    · rw [hcase]
      exact ih db poll hfind hsingle htail hle
    · exact ih (seqVoteInsert auth now db w) poll
        (by rw [seqVoteInsert_polls]; exact hfind) hsingle htail
        (by rw [hw1, hw2] at hone; omega)

/-- C1 amended: with serialized admission — every attempt running the full
store insert path (trigger, RLS, CHECK) against the state holding all
previously committed rows — a voter's attempts on a single-vote poll leave
at most one (poll, voter) vote row; when at least one attempt succeeds the
count is exactly one, and in particular it is exactly one whenever the
store admits the first attempt. -/
theorem C1_amended_sequential_at_most_one (db : DB) (poll : Poll)
    (auth : Option String) (now : Int) (pollId voterId : String)
    (vs : List Vote)
    (hfind : db.polls.find? (fun p => p.id == pollId) = some poll)
    (hsingle : poll.allow_multiple_votes = false)
    (hall : ∀ w ∈ vs, w.poll_id = pollId ∧ w.voter_id = voterId)
    (hzero : pvCount db pollId voterId = 0) :
    pvCount (seqRun auth now db vs) pollId voterId ≤ 1 ∧
    (0 < pvCount (seqRun auth now db vs) pollId voterId →
      pvCount (seqRun auth now db vs) pollId voterId = 1) ∧
    (∀ w rest, vs = w :: rest → insertAdmits db auth now w = true →
      pvCount (seqRun auth now db vs) pollId voterId = 1) := by
  have hle := seqRun_pvCount_le_one auth now pollId voterId vs db poll hfind
    hsingle hall (by omega)
  refine ⟨hle, fun hpos => by omega, ?_⟩
  intro w rest hvs hadm
  subst hvs
  obtain ⟨hw1, hw2⟩ := hall w (List.mem_cons_self _ _)
  unfold insertAdmits at hadm
  cases hins : votesInsert db auth now w with
  | error e =>
    rw [hins] at hadm
    exact absurd hadm (by simp)
  | ok db1 =>
    have hv := votesInsert_ok_votes db auth now w db1 hins
    have hp := votesInsert_ok_polls db auth now w db1 hins
    have hone : pvCount db1 pollId voterId = 1 := by
      unfold pvCount at hzero ⊢
      rw [hv, List.filter_append, List.length_append, hzero]
      simp [hw1, hw2]
    have hstable := seqRun_id_of_pos auth now pollId voterId rest db1 poll
      (by rw [hp]; exact hfind) hsingle
      (fun x hx => hall x (List.mem_cons_of_mem _ hx)) (by omega)
    have hstep : seqVoteInsert auth now db w = db1 := by
      unfold seqVoteInsert
      rw [hins]
    unfold seqRun at hstable ⊢
    rw [List.foldl_cons, hstep, hstable]
    exact hone

/-- A concrete single-vote poll (allow_multiple_votes = false). -/
def racePoll : Poll :=
  ⟨"p1", "Lunch", none, false, true, true, false, "single", "owner",
    none, none, none⟩

/-- Store holding `racePoll` and its two options, with an empty ledger. -/
def raceDB : DB :=
  ⟨[racePoll], [⟨"oA", "p1", "Pizza", 0⟩, ⟨"oB", "p1", "Sushi", 1⟩], []⟩

/-- C1 counterexample: starting from an empty ledger on an active,
unexpired single-vote poll, two concurrent admit attempts by the same
authenticated voter whose full admission checks (trigger, RLS and CHECK)
both read the pre-insert snapshot are BOTH admitted: two vote rows for the
(poll, voter) pair persist, and the final state still satisfies the only
uniqueness constraint declared on `votes` — the (poll, voter, option)
triple — so no store-level uniqueness constraint enforces at-most-one per
(poll, voter). -/
theorem C1_counterexample :
    pvCount raceDB "p1" "alice" = 0 ∧
    insertAdmits raceDB (some "alice") 5 ⟨"p1", "oA", "alice"⟩ = true ∧
    insertAdmits raceDB (some "alice") 5 ⟨"p1", "oB", "alice"⟩ = true ∧
    pvCount (interleavedPairInsert raceDB (some "alice") (some "alice") 5
      ⟨"p1", "oA", "alice"⟩ ⟨"p1", "oB", "alice"⟩) "p1" "alice" = 2 ∧
    votesTripleUnique (interleavedPairInsert raceDB (some "alice")
      (some "alice") 5 ⟨"p1", "oA", "alice"⟩ ⟨"p1", "oB", "alice"⟩).votes := by
  decide

/-- C1 amended witness: the same two attempts applied sequentially through
the full insert path leave exactly one row for (p1, alice), the store
having admitted the first. -/
theorem C1_amended_sequential_at_most_one_witness :
    pvCount (seqRun (some "alice") 5 raceDB
      [⟨"p1", "oA", "alice"⟩, ⟨"p1", "oB", "alice"⟩]) "p1" "alice" = 1 :=
  (C1_amended_sequential_at_most_one raceDB racePoll (some "alice") 5 "p1"
    "alice" [⟨"p1", "oA", "alice"⟩, ⟨"p1", "oB", "alice"⟩]
    (by decide) (by decide) (by decide) (by decide)).2.2
    ⟨"p1", "oA", "alice"⟩ [⟨"p1", "oB", "alice"⟩] rfl (by decide)

/-- C6: for inputs valid in every other field, the zod parse succeeds
exactly when the option array has between 2 and 10 entries, and on 0, 1 or
more than 10 entries `createPoll` answers VALIDATION_ERROR with the store
untouched (rejection happens before any write). -/
theorem C6_createPoll_option_count_bounds (st : PollsStore)
    (input : CreatePollInput) (auth : Option String) (newId : String)
    (e1 e2 : Bool)
    (htitle : 3 ≤ input.title.length ∧ input.title.length ≤ 200)
    (hdesc : ∀ d, input.description = some d → d.length ≤ 2000)
    (hopts : ∀ t ∈ input.options, 1 ≤ t.length ∧ t.length ≤ 200)
    (hexp : ∀ s, input.expiresAt = some (some s) → zDatetime s = true) :
    (createPollSchema_ok input = true ↔
      2 ≤ input.options.length ∧ input.options.length ≤ 10) ∧
    (input.options.length < 2 ∨ 10 < input.options.length →
      createPoll st input auth newId e1 e2 =
        (CreatePollResult.err "VALIDATION_ERROR", st)) := by
  have hiff : createPollSchema_ok input = true ↔
      2 ≤ input.options.length ∧ input.options.length ≤ 10 := by
    unfold createPollSchema_ok
    rw [decide_eq_true htitle.1, decide_eq_true htitle.2]
    have hd : (match input.description with
        | none => true
        | some d => decide (d.length ≤ 2000)) = true := by
      cases hdd : input.description with
      | none => rfl
      | some d => exact decide_eq_true (hdesc d hdd)
    rw [hd]
    have hall : (input.options.all fun t =>
        decide (1 ≤ t.length) && decide (t.length ≤ 200)) = true := by
      rw [List.all_eq_true]
      intro t ht
      rw [decide_eq_true (hopts t ht).1, decide_eq_true (hopts t ht).2]
      rfl
    rw [hall]
    have hex : (match input.expiresAt with
        | none => true
        | some none => true
        | some (some s) => zDatetime s) = true := by
      cases hee : input.expiresAt with
      | none => rfl
      | some o =>
        cases o with
        | none => rfl
        | some s => exact hexp s hee
    rw [hex]
    simp
  refine ⟨hiff, fun hbad => ?_⟩
  have hfail : createPollSchema_ok input = false := by
    rcases Bool.eq_false_or_eq_true (createPollSchema_ok input) with h | h
    · have := hiff.mp h
      omega
    · exact h
  unfold createPoll
  rw [hfail]
  simp

/-- C6 witness: a one-option submission with otherwise valid fields is
rejected with VALIDATION_ERROR and nothing is written. -/
theorem C6_createPoll_option_count_bounds_witness :
    createPoll ⟨[], []⟩ ⟨"abc", none, ["a"], none, none, none⟩ (some "u") "p9"
      false false = (CreatePollResult.err "VALIDATION_ERROR", ⟨[], []⟩) :=
  (C6_createPoll_option_count_bounds ⟨[], []⟩
    ⟨"abc", none, ["a"], none, none, none⟩ (some "u") "p9" false false
    (by decide) (by intro d hd; cases hd) (by decide)
    (by intro s hs; cases hs)).2 (by decide)

/-- C8: when payload validation and authentication pass, the poll insert
succeeds and the subsequent options insert fails, `createPoll` returns the
DB_INSERT_OPTIONS error while the already persisted poll row stays in the
store and no option rows are written — no compensating delete happens. -/
theorem C8_orphaned_poll_on_options_failure (st : PollsStore)
    (input : CreatePollInput) (uid newId : String)
    (hok : createPollSchema_ok input = true) :
    createPoll st input (some uid) newId false true =
      (CreatePollResult.err "DB_INSERT_OPTIONS",
        { st with polls := st.polls ++ [(newId, pollRowOfInput input uid)] }) := by
  unfold createPoll
  rw [hok]
  rfl

/-- C8 witness: a valid two-option submission whose options insert fails
leaves the orphaned poll row behind. -/
theorem C8_orphaned_poll_on_options_failure_witness :
    createPoll ⟨[], []⟩ ⟨"abc", none, ["a", "b"], none, none, none⟩
      (some "u") "p9" false true =
      (CreatePollResult.err "DB_INSERT_OPTIONS",
        ⟨[("p9", pollRowOfInput ⟨"abc", none, ["a", "b"], none, none, none⟩ "u")],
          []⟩) :=
  C8_orphaned_poll_on_options_failure ⟨[], []⟩
    ⟨"abc", none, ["a", "b"], none, none, none⟩ "u" "p9" (by decide)

/-- C7: an activation request by the poll's owner fails with the
minimum-options error while the poll has fewer than two options (the store
is left unchanged since the statement aborts), succeeds and sets the flag
of every matched row to true when the poll has at least two options, and a
deactivation request by the owner succeeds unconditionally. -/
theorem C7_setActive_min_options (db : DB) (uid pollId : String) (poll : Poll)
    (hmem : poll ∈ db.polls) (hid : poll.id = pollId)
    (howner : poll.created_by = uid) :
    (optionCount db pollId < 2 →
      setActive db uid pollId true =
        Except.error "A poll must have at least 2 options before activation.") ∧
    (2 ≤ optionCount db pollId →
      setActive db uid pollId true =
        Except.ok { db with polls := db.polls.map fun p =>
          if p.id == pollId && p.created_by == uid then
            { p with is_active := true } else p } ∧
      ∀ q ∈ db.polls.map fun p =>
          if p.id == pollId && p.created_by == uid then
            { p with is_active := true } else p,
        q.id = pollId → q.created_by = uid → q.is_active = true) ∧
    setActive db uid pollId false =
      Except.ok { db with polls := db.polls.map fun p =>
        if p.id == pollId && p.created_by == uid then
          { p with is_active := false } else p } := by
  have hpmem : poll ∈ db.polls.filter fun p => p.id == pollId && p.created_by == uid := by
    rw [List.mem_filter]
    exact ⟨hmem, by simp [hid, howner]⟩
  refine ⟨?_, ?_, ?_⟩
  · intro hlt
    have hfalse : ((db.polls.filter fun p => p.id == pollId && p.created_by == uid).all
        fun p => enforce_min_options db { p with is_active := true }) = false := by
      rw [List.all_eq_false]
      refine ⟨poll, hpmem, ?_⟩
      unfold enforce_min_options
      simp [hid, hlt]
    unfold setActive
    dsimp only
    rw [hfalse]
    rfl
  · intro hge
    have htrue : ((db.polls.filter fun p => p.id == pollId && p.created_by == uid).all
        fun p => enforce_min_options db { p with is_active := true }) = true := by
      rw [List.all_eq_true]
      intro p hp
      have hpid : p.id = pollId := by
        rw [List.mem_filter] at hp
        have := hp.2
        simp only [Bool.and_eq_true, beq_iff_eq] at this
        exact this.1
      unfold enforce_min_options
      simp [hpid, hge]
    constructor
    · unfold setActive
      dsimp only
      rw [htrue]
      rfl
    · intro q hq hqid howq
      rcases List.mem_map.mp hq with ⟨p, hp, hpq⟩
      by_cases hc : (p.id == pollId && p.created_by == uid) = true
      · rw [if_pos hc] at hpq
        rw [← hpq]
      · rw [if_neg hc] at hpq
        subst hpq
        exact absurd (by simp [hqid, howq]) hc
  · have htrue : ((db.polls.filter fun p => p.id == pollId && p.created_by == uid).all
        fun p => enforce_min_options db { p with is_active := false }) = true := by
      rw [List.all_eq_true]
      intro p _
      rfl
    unfold setActive
    dsimp only
    rw [htrue]
    rfl

/-- C7 witness: activating a one-option poll fails with the minimum-options
error. -/
theorem C7_setActive_min_options_witness :
    setActive inactiveDB "owner" "p1" true =
      Except.error "A poll must have at least 2 options before activation." :=
  (C7_setActive_min_options inactiveDB "owner" "p1" inactivePoll
    (by decide) (by decide) (by decide)).1 (by decide)

/-- Rounding half away from zero to one decimal moves a value by at most
1/20. -/
lemma round1_sub_abs_le (q : ℚ) : |round1 q - q| ≤ 1 / 20 := by
  have h1 : (⌊q * 10 + 1 / 2⌋ : ℚ) ≤ q * 10 + 1 / 2 := Int.floor_le _
  have h2 : q * 10 + 1 / 2 - 1 < (⌊q * 10 + 1 / 2⌋ : ℚ) := Int.sub_one_lt_floor _
  rw [round1, abs_le]
  constructor <;> linarith

/-- Summing pointwise-close functions over a list keeps the sums within
length · ε of each other. -/
lemma sum_map_sub_abs_le (l : List ℕ) (f g : ℕ → ℚ) (ε : ℚ)
    (h : ∀ c ∈ l, |f c - g c| ≤ ε) :
    |(l.map f).sum - (l.map g).sum| ≤ l.length * ε := by
  induction l with
  | nil => simp
  | cons c t ih =>
    have hc := h c (List.mem_cons_self _ _)
    have ht := ih fun x hx => h x (List.mem_cons_of_mem _ hx)
    simp only [List.map_cons, List.sum_cons, List.length_cons]
    have key : f c + (t.map f).sum - (g c + (t.map g).sum) =
        (f c - g c) + ((t.map f).sum - (t.map g).sum) := by ring
    rw [key]
    refine le_trans (abs_add _ _) ?_
    push_cast
    nlinarith [abs_nonneg (f c - g c)]

/-- Sum of the unrounded per-option shares. -/
lemma sum_map_div_mul (counts : List ℕ) (T : ℚ) :
    (counts.map fun (c : ℕ) => (c : ℚ) / T * 100).sum = (counts.sum : ℚ) / T * 100 := by
  induction counts with
  | nil => simp
  | cons c t ih =>
    simp only [List.map_cons, List.sum_cons, ih]
    push_cast
    ring

/-- With a positive total, the unrounded shares sum to exactly 100. -/
lemma exact_shares_sum (counts : List ℕ) (hpos : 0 < counts.sum) :
    (counts.map fun (c : ℕ) => (c : ℚ) / (counts.sum : ℚ) * 100).sum = 100 := by
  rw [sum_map_div_mul]
  have hT : (counts.sum : ℚ) ≠ 0 := by
    have : (0 : ℚ) < (counts.sum : ℚ) := by exact_mod_cast hpos
    exact ne_of_gt this
  rw [div_self hT, one_mul]

/-- C5 counterexample: a poll with six options and one vote each has total
6 > 0, every percentage 16.7, and a percentage sum of 100.2 — outside the
claimed ±0.1 tolerance around 100. -/
theorem C5_counterexample :
    poll_results_percentages [1, 1, 1, 1, 1, 1] =
      [167/10, 167/10, 167/10, 167/10, 167/10, 167/10] ∧
    ¬ |(poll_results_percentages [1, 1, 1, 1, 1, 1]).sum - 100| ≤ 1 / 10 := by
  constructor
  · norm_num [poll_results_percentages, percentage, round1]
  · norm_num [poll_results_percentages, percentage, round1]
    rw [show |(1 : ℚ) / 5| = 1 / 5 from abs_of_nonneg (by norm_num)]
    norm_num

/-- C5 amended: each per-option percentage of the `poll_results` view is
100 · votes / total rounded half away from zero to one decimal when the
total is positive, and exactly 0 for every option when the total is zero;
with a positive total, the percentages sum to 100 within ±(n/20) for n
options (±0.5 for the at-most-10 options a poll can hold) — but not within
the ±0.1 of the original claim. -/
theorem C5_amended_percentages (counts : List ℕ) :
    (0 < counts.sum →
      poll_results_percentages counts =
        counts.map (fun (c : ℕ) => round1 (100 * (c : ℚ) / (counts.sum : ℚ))) ∧
      |(poll_results_percentages counts).sum - 100| ≤ (counts.length : ℚ) / 20) ∧
    (counts.sum = 0 → poll_results_percentages counts = counts.map fun _ => 0) := by
  constructor
  · intro hpos
    constructor
    · unfold poll_results_percentages percentage
      apply List.map_congr_left
      intro c _
      rw [if_pos hpos]
      congr 1
      ring
    · have hbound : ∀ c ∈ counts,
          |percentage c counts.sum - (c : ℚ) / (counts.sum : ℚ) * 100| ≤ 1 / 20 := by
        intro c _
        unfold percentage
        rw [if_pos hpos]
        exact round1_sub_abs_le _
      have hmain := sum_map_sub_abs_le counts (fun c => percentage c counts.sum)
        (fun (c : ℕ) => (c : ℚ) / (counts.sum : ℚ) * 100) (1 / 20) hbound
      rw [exact_shares_sum counts hpos] at hmain
      unfold poll_results_percentages
      refine le_trans hmain (le_of_eq ?_)
      ring
  · intro hz
    unfold poll_results_percentages percentage
    apply List.map_congr_left
    intro c _
    rw [hz]
    simp

/-- C5 amended witness: for four options with votes 1, 1, 1 and 0 (total
3), the view yields 33.3, 33.3, 33.3, 0, which sums to 99.9 — within the
4/20 bound of the amended statement. -/
theorem C5_amended_percentages_witness :
    poll_results_percentages [1, 1, 1, 0] =
      [1, 1, 1, 0].map (fun (c : ℕ) => round1 (100 * (c : ℚ) / ((4:ℚ) - 1))) ∧
    |(poll_results_percentages [1, 1, 1, 0]).sum - 100| ≤ (4 : ℚ) / 20 := by
  have h := (C5_amended_percentages [1, 1, 1, 0]).1 (by decide)
  constructor
  · refine Eq.trans h.1 ?_
    norm_num
  · exact le_trans h.2 (by norm_num)

end AlxPolly
